import Mathlib

/-!
Shallow embedding of the blog backend's core: the post and comment routers,
and the admin bootstrap script. Document ids and user ids (Mongo ObjectIds)
are modelled as `String` (the routes compare them via `toString`), text
fields as `String`, timestamps as `Nat`. Each route handler becomes a pure
function from its request data and the current store to a result together
with the updated store; HTTP error statuses become the `ApiError` type.
-/

namespace Blog

/-- A stored `User` document (`models/User.js`): `role` is the raw string
the routes compare against `"admin"`. -/
structure User where
  id : String
  username : String
  email : String
  password : String
  role : String
deriving DecidableEq

/-- A stored `Post` document (`models/Post.js` as used by the posts router):
`author` holds the owning user's id, `authorName` the denormalized username. -/
structure Post where
  id : String
  title : String
  content : String
  image : String
  author : String
  authorName : String
  createdAt : Nat
deriving DecidableEq

/-- A stored `Comment` document (`models/Comment.js`). -/
structure Comment where
  id : String
  content : String
  post : String
  author : String
  authorName : String
deriving DecidableEq

/-- The JSON object the list-posts route builds for one post. `author = none`
models the `author` key being absent from the object literal. -/
structure PostView where
  id : String
  title : String
  content : String
  image : String
  author : Option String
  authorName : String
  createdAt : Nat
deriving DecidableEq

/-- The document store backing the routers. -/
structure DB where
  posts : List Post
  comments : List Comment
deriving DecidableEq

/-- The error outcomes of the route handlers: HTTP 400, 404, 403. -/
inductive ApiError where
  | validation
  | notFound
  | forbidden
deriving DecidableEq

/-- `startsWithL pat s`: does `s` start with `pat` (on code-unit lists)? -/
def startsWithL : List Char → List Char → Bool
  | [], _ => true
  | _ :: _, [] => false
  | p :: ps, c :: cs => p == c && startsWithL ps cs

/-- JavaScript `String.prototype.replace` with a string pattern: replace the
first occurrence of `pat` by `rep`, leave the string unchanged if `pat` does
not occur. -/
def replFirst (pat rep : List Char) : List Char → List Char
  | [] => []
  | c :: cs =>
    if startsWithL pat (c :: cs) = true then rep ++ List.drop pat.length (c :: cs)
    else c :: replFirst pat rep cs

/-- `GET /posts` lines 150-151: `req.header('Authorization')?.replace('Bearer ', '')`
followed by `!!token`. An absent header gives `undefined`, hence `false`; a
present header is authenticated iff stripping the first `"Bearer "` leaves a
non-empty string. No credential verification happens here. -/
def isAuthenticatedReq (authHeader : Option String) : Bool :=
  match authHeader with
  | none => false
  | some h => decide (String.mk (replFirst "Bearer ".data [] h.data) ≠ "")

/-- `post.content.substring(0, 150) + '...'` from the unauthenticated branch
of `GET /posts`. -/
def publicContent (s : String) : String :=
  String.mk (s.data.take 150 ++ "...".data)

/-- The object built for a post in the authenticated branch of `GET /posts`:
full `content`, with the `author` field present. -/
def fullPostView (p : Post) : PostView :=
  { id := p.id, title := p.title, content := p.content, image := p.image,
    author := some p.author, authorName := p.authorName, createdAt := p.createdAt }

/-- The object built for a post in the unauthenticated branch of `GET /posts`:
truncated `content`, no `author` field (only `authorName`). -/
def publicPostView (p : Post) : PostView :=
  { id := p.id, title := p.title, content := publicContent p.content, image := p.image,
    author := none, authorName := p.authorName, createdAt := p.createdAt }

/-- `GET /posts`: sort all posts by `createdAt` descending, then map each post
to its full or public view according to `isAuthenticatedReq`. -/
def listPosts (authHeader : Option String) (posts : List Post) : List PostView :=
  let isAuth := isAuthenticatedReq authHeader
  (List.insertionSort (fun a b => b.createdAt ≤ a.createdAt) posts).map
    (fun post => if isAuth = true then fullPostView post else publicPostView post)

/-- `Post.findById` over the store: first post whose id matches. -/
def findPostById (posts : List Post) (id : String) : Option Post :=
  posts.find? (fun p => decide (p.id = id))

/-- `Comment.findById` over the store: first comment whose id matches. -/
def findCommentById (comments : List Comment) (id : String) : Option Comment :=
  comments.find? (fun c => decide (c.id = id))

/-- `POST /comments`: reject falsy `content`/`postId` (400), reject a
`postId` naming no post (404), otherwise persist a new comment carrying the
actor's id and username. `newId` stands for the id the store assigns. -/
def createComment (actor : User) (content postId newId : String) (db : DB) :
    Except ApiError Comment × DB :=
  if content = "" ∨ postId = "" then (.error .validation, db)
  else
    match findPostById db.posts postId with
    | none => (.error .notFound, db)
    | some _ =>
      let comment : Comment :=
        { id := newId, content := content, post := postId,
          author := actor.id, authorName := actor.username }
      (.ok comment, { db with comments := db.comments ++ [comment] })

/-- `PUT /comments/:id`: 404 when missing; 403 unless the comment's author is
the actor (no admin override); otherwise overwrite `content` and save. -/
def updateComment (actor : User) (id content : String) (db : DB) :
    Except ApiError Comment × DB :=
  match findCommentById db.comments id with
  | none => (.error .notFound, db)
  | some comment =>
    if comment.author ≠ actor.id then (.error .forbidden, db)
    else
      let updated := { comment with content := content }
      (.ok updated,
       { db with comments := db.comments.map (fun c => if c.id = id then updated else c) })

/-- `DELETE /comments/:id`: 404 when missing; allowed for the owner or any
admin; 403 otherwise; on success `findByIdAndDelete` removes the document. -/
def deleteComment (actor : User) (id : String) (db : DB) :
    Except ApiError Unit × DB :=
  match findCommentById db.comments id with
  | none => (.error .notFound, db)
  | some comment =>
    let isOwner := comment.author = actor.id
    let isAdminUser := actor.role = "admin"
    if ¬ isOwner ∧ ¬ isAdminUser then (.error .forbidden, db)
    else (.ok (), { db with comments := db.comments.filter (fun c => decide (c.id ≠ id)) })

/-- `POST /posts`: reject falsy `title`/`content` (400); `file` models
`req.file` from the upload middleware, giving `image = '/uploads/<name>'` or
`''`; persist a new post owned by the actor. -/
def createPost (actor : User) (title content : String) (file : Option String)
    (newId : String) (createdAt : Nat) (db : DB) : Except ApiError Post × DB :=
  if title = "" ∨ content = "" then (.error .validation, db)
  else
    let image := match file with
      | some f => "/uploads/" ++ f
      | none => ""
    let post : Post :=
      { id := newId, title := title, content := content, image := image,
        author := actor.id, authorName := actor.username, createdAt := createdAt }
    (.ok post, { db with posts := db.posts ++ [post] })

/-- `PUT /posts/:id`: 404 when missing; allowed for the owner or any admin,
403 otherwise; then each of `title`/`content` is overwritten only when truthy
(a missing field and the empty string are both falsy), and `image` only when
a file was uploaded; the updated document is saved. `title`/`content` are
`Option String` to distinguish an absent body field (`none`) from a supplied
empty string (`some ""`), which JavaScript truthiness treats alike. -/
def updatePost (actor : User) (id : String) (title content : Option String)
    (file : Option String) (db : DB) : Except ApiError Post × DB :=
  match findPostById db.posts id with
  | none => (.error .notFound, db)
  | some post =>
    let isOwner := post.author = actor.id
    let isUserAdmin := actor.role = "admin"
    if ¬ isOwner ∧ ¬ isUserAdmin then (.error .forbidden, db)
    else
      let post1 := if title.getD "" ≠ "" then { post with title := title.getD "" } else post
      let post2 := if content.getD "" ≠ "" then { post1 with content := content.getD "" } else post1
      let post3 := match file with
        | some f => { post2 with image := "/uploads/" ++ f }
        | none => post2
      (.ok post3, { db with posts := db.posts.map (fun p => if p.id = id then post3 else p) })

/-- `DELETE /posts/:id`: 404 when missing; allowed for the owner or any
admin; 403 otherwise; on success the document is removed. -/
def deletePost (actor : User) (id : String) (db : DB) :
    Except ApiError Unit × DB :=
  match findPostById db.posts id with
  | none => (.error .notFound, db)
  | some post =>
    let isOwner := post.author = actor.id
    let isUserAdmin := actor.role = "admin"
    if ¬ isOwner ∧ ¬ isUserAdmin then (.error .forbidden, db)
    else (.ok (), { db with posts := db.posts.filter (fun p => decide (p.id ≠ id)) })

/-- The new admin `User` document built by `createAdmin.js` when no user
matches the given email or username. -/
def bootstrapUser (email username password newId : String) : User :=
  { id := newId, username := username, email := email,
    password := password, role := "admin" }

/-- `createAdmin.js`: exit 1 on a missing argument; otherwise look up a user
by email or username; if found and already admin, succeed without change; if
found and not admin, set `role := "admin"` and save; otherwise create a new
admin user. Returns the user store and the process exit code. -/
def createAdmin (email username password newId : String) (users : List User) :
    List User × Nat :=
  if email = "" ∨ username = "" ∨ password = "" then (users, 1)
  else
    match users.find? (fun u => decide (u.email = email ∨ u.username = username)) with
    | some existingUser =>
      if existingUser.role = "admin" then (users, 0)
      else
        (users.map (fun u => if u.id = existingUser.id then { u with role := "admin" } else u), 0)
    | none =>
      (users ++ [bootstrapUser email username password newId], 0)

/-! Concrete fixtures used by witnesses and counterexamples. -/

/-- The post of the spec's scenario: `title = "Hi"`, `content = "World"`. -/
def postHi : Post :=
  { id := "p1", title := "Hi", content := "World", image := "",
    author := "uA", authorName := "alice", createdAt := 1 }

/-- The post's owner. -/
def userA : User :=
  { id := "uA", username := "alice", email := "a@x", password := "pw", role := "user" }

/-- An unrelated non-admin user. -/
def userB : User :=
  { id := "uB", username := "bob", email := "b@x", password := "pw", role := "user" }

/-- An admin who authored neither `postHi` nor `commentA`. -/
def userAdmin : User :=
  { id := "adm", username := "root", email := "r@x", password := "pw", role := "admin" }

/-- A comment by `userA` on `postHi`. -/
def commentA : Comment :=
  { id := "c1", content := "nice", post := "p1", author := "uA", authorName := "alice" }

/-- A store holding `postHi` and `commentA`. -/
def dbOne : DB := { posts := [postHi], comments := [commentA] }

/-- The empty store. -/
def emptyDB : DB := { posts := [], comments := [] }

/-! Helper lemmas. -/

theorem string_append_data (a b : String) : a ++ b = String.mk (a.data ++ b.data) := by
  cases a
  cases b
  rfl

theorem startsWithL_append (p r : List Char) : startsWithL p (p ++ r) = true := by
  induction p with
  | nil => rfl
  | cons a ps ih => simp [startsWithL, ih]

theorem replFirst_append (p rep r : List Char) (hp : p ≠ []) :
    replFirst p rep (p ++ r) = rep ++ r := by
  cases p with
  | nil => exact absurd rfl hp
  | cons a ps =>
    rw [List.cons_append, replFirst]
    have hs : startsWithL (a :: ps) (a :: (ps ++ r)) = true := startsWithL_append (a :: ps) r
    rw [if_pos hs]
    simp [List.drop_left]

/-- Any header of the shape `"Bearer " ++ t` with `t` non-empty passes the
list route's authentication test, whatever `t` is. -/
theorem isAuthenticatedReq_bearer (t : String) (ht : t ≠ "") :
    isAuthenticatedReq (some ("Bearer " ++ t)) = true := by
  simp only [isAuthenticatedReq]
  have h1 : ("Bearer " ++ t).data = "Bearer ".data ++ t.data := by
    rw [string_append_data]
  rw [h1, replFirst_append _ _ _ (by decide)]
  simp only [List.nil_append]
  exact decide_eq_true ht

theorem mem_sortPosts {p : Post} {posts : List Post} :
    p ∈ List.insertionSort (fun a b => b.createdAt ≤ a.createdAt) posts ↔ p ∈ posts :=
  (List.perm_insertionSort _ _).mem_iff

theorem listPosts_none_eq (posts : List Post) :
    listPosts none posts =
      (List.insertionSort (fun a b => b.createdAt ≤ a.createdAt) posts).map publicPostView := by
  simp [listPosts, isAuthenticatedReq]

theorem listPosts_auth_eq (h : Option String) (hh : isAuthenticatedReq h = true)
    (posts : List Post) :
    listPosts h posts =
      (List.insertionSort (fun a b => b.createdAt ≤ a.createdAt) posts).map fullPostView := by
  simp [listPosts, hh]

/-- C1 -/
theorem listPosts_visibility_policy (db : List Post) (p : Post) (hp : p ∈ db)
    (h : String) (hh : isAuthenticatedReq (some h) = true) :
    (publicPostView p ∈ listPosts none db ∧
      (publicPostView p).author = none ∧
      (publicPostView p).content.length ≤ 153 ∧
      (publicPostView p).content = String.mk (p.content.data.take 150 ++ "...".data)) ∧
    (fullPostView p ∈ listPosts (some h) db ∧
      (fullPostView p).content = p.content ∧
      (fullPostView p).author = some p.author) := by
  refine ⟨⟨?_, rfl, ?_, rfl⟩, ⟨?_, rfl, rfl⟩⟩
  · rw [listPosts_none_eq]
    exact List.mem_map_of_mem _ (mem_sortPosts.mpr hp)
  · have h1 : (publicPostView p).content.length = (p.content.data.take 150 ++ "...".data).length := rfl
    have h2 : ("...".data).length = 3 := rfl
    rw [h1, List.length_append, List.length_take, h2]
    omega
  · rw [listPosts_auth_eq (some h) hh]
    exact List.mem_map_of_mem _ (mem_sortPosts.mpr hp)

/-- C1 witness -/
theorem listPosts_visibility_policy_witness :
    publicPostView postHi ∈ listPosts none [postHi] ∧
    fullPostView postHi ∈ listPosts (some "Bearer tok") [postHi] := by
  have h := listPosts_visibility_policy [postHi] postHi (by simp) "Bearer tok" (by decide)
  exact ⟨h.1.1, h.2.1⟩

/-- C2 counterexample -/
theorem listPosts_short_content_cex :
    postHi.content = "World" ∧ postHi.content.length < 150 ∧
    listPosts none [postHi] = [publicPostView postHi] ∧
    (publicPostView postHi).content = "World..." ∧
    ("World..." : String) ≠ "World" :=
  ⟨rfl, by decide, rfl, rfl, by decide⟩

/-- C2 amended -/
theorem listPosts_public_always_ellipsis (db : List Post) (p : Post) (hp : p ∈ db)
    (hlen : p.content.length < 150) :
    publicPostView p ∈ listPosts none db ∧
    (publicPostView p).content = p.content ++ "..." ∧
    (publicPostView p).author = none := by
  refine ⟨?_, ?_, rfl⟩
  · rw [listPosts_none_eq]
    exact List.mem_map_of_mem _ (mem_sortPosts.mpr hp)
  · have htake : p.content.data.take 150 = p.content.data :=
      List.take_of_length_le (Nat.le_of_lt hlen)
    show String.mk (p.content.data.take 150 ++ "...".data) = p.content ++ "..."
    rw [htake, string_append_data]

/-- C2 amended witness -/
theorem listPosts_public_always_ellipsis_witness :
    publicPostView postHi ∈ listPosts none [postHi] ∧
    (publicPostView postHi).content = postHi.content ++ "..." ∧
    (publicPostView postHi).author = none :=
  listPosts_public_always_ellipsis [postHi] postHi (by simp) (by decide)

/-- C10 -/
theorem listPosts_token_presence_only (db : List Post) (t : String) (ht : t ≠ "") :
    isAuthenticatedReq (some ("Bearer " ++ t)) = true ∧
    listPosts (some ("Bearer " ++ t)) db =
      (List.insertionSort (fun a b => b.createdAt ≤ a.createdAt) db).map fullPostView ∧
    ∀ p ∈ db, fullPostView p ∈ listPosts (some ("Bearer " ++ t)) db := by
  have hauth := isAuthenticatedReq_bearer t ht
  refine ⟨hauth, listPosts_auth_eq _ hauth db, ?_⟩
  intro p hp
  rw [listPosts_auth_eq _ hauth db]
  exact List.mem_map_of_mem _ (mem_sortPosts.mpr hp)

/-- C10 witness -/
theorem listPosts_token_presence_only_witness :
    isAuthenticatedReq (some ("Bearer " ++ "not-a-real-credential")) = true ∧
    listPosts (some ("Bearer " ++ "not-a-real-credential")) [postHi] =
      (List.insertionSort (fun a b => b.createdAt ≤ a.createdAt) [postHi]).map fullPostView ∧
    ∀ p ∈ [postHi], fullPostView p ∈ listPosts (some ("Bearer " ++ "not-a-real-credential")) [postHi] :=
  listPosts_token_presence_only [postHi] "not-a-real-credential" (by decide)

/-- C3 -/
theorem updateComment_author_only (db : DB) (actor : User) (id content : String)
    (c : Comment) (hc : findCommentById db.comments id = some c)
    (hne : actor.id ≠ c.author) :
    updateComment actor id content db = (.error .forbidden, db) := by
  simp [updateComment, hc, Ne.symm hne]

/-- C3 witness -/
theorem updateComment_author_only_witness :
    updateComment userAdmin "c1" "defaced" dbOne = (.error .forbidden, dbOne) :=
  updateComment_author_only dbOne userAdmin "c1" "defaced" commentA rfl (by decide)

/-- C4 -/
theorem deleteComment_owner_or_admin (db : DB) (actor : User) (id : String) :
    (findCommentById db.comments id = none →
      deleteComment actor id db = (.error .notFound, db)) ∧
    ∀ c, findCommentById db.comments id = some c →
      ((actor.id = c.author ∨ actor.role = "admin") →
        deleteComment actor id db =
          (.ok (), { db with comments := db.comments.filter (fun x => decide (x.id ≠ id)) })) ∧
      (actor.id ≠ c.author → actor.role ≠ "admin" →
        deleteComment actor id db = (.error .forbidden, db)) := by
  constructor
  · intro h
    simp [deleteComment, h]
  · intro c hc
    constructor
    · intro hok
      have hcond : ¬(¬ c.author = actor.id ∧ ¬ actor.role = "admin") := by
        rcases hok with h | h
        · exact fun hx => hx.1 h.symm
        · exact fun hx => hx.2 h
      simp [deleteComment, hc, hcond]
    · intro h1 h2
      have hcond : ¬ c.author = actor.id ∧ ¬ actor.role = "admin" :=
        ⟨fun e => h1 e.symm, h2⟩
      simp [deleteComment, hc, hcond.1, hcond.2]

/-- C4 witness -/
theorem deleteComment_owner_or_admin_witness :
    deleteComment userAdmin "c1" dbOne =
      (.ok (), { dbOne with comments := dbOne.comments.filter (fun x => decide (x.id ≠ "c1")) }) :=
  ((deleteComment_owner_or_admin dbOne userAdmin "c1").2 commentA rfl).1 (Or.inr rfl)

/-- C5 counterexample -/
theorem createComment_empty_fields_cex :
    findPostById emptyDB.posts "missing" = none ∧
    createComment userB "" "missing" "c9" emptyDB = (.error .validation, emptyDB) ∧
    findPostById dbOne.posts "" = none ∧
    createComment userB "a comment" "" "c9" dbOne = (.error .validation, dbOne) ∧
    ApiError.validation ≠ ApiError.notFound :=
  ⟨rfl, rfl, rfl, rfl, by decide⟩

/-- C5 amended -/
theorem createComment_missing_post_notFound (db : DB) (actor : User)
    (content postId newId : String) (hcont : content ≠ "") (hpid : postId ≠ "")
    (hmiss : findPostById db.posts postId = none) :
    createComment actor content postId newId db = (.error .notFound, db) := by
  simp [createComment, hcont, hpid, hmiss]

/-- C5 amended witness -/
theorem createComment_missing_post_notFound_witness :
    createComment userB "a comment" "missing" "c9" emptyDB = (.error .notFound, emptyDB) :=
  createComment_missing_post_notFound emptyDB userB "a comment" "missing" "c9"
    (by decide) (by decide) rfl

/-- C6 -/
theorem createPost_requires_title_content (db : DB) (actor : User)
    (title content : String) (file : Option String) (newId : String) (createdAt : Nat)
    (h : title = "" ∨ content = "") :
    createPost actor title content file newId createdAt db = (.error .validation, db) := by
  unfold createPost
  rw [if_pos h]

/-- C6 witness -/
theorem createPost_requires_title_content_witness :
    createPost userB "" "some content" none "p9" 7 emptyDB = (.error .validation, emptyDB) :=
  createPost_requires_title_content emptyDB userB "" "some content" none "p9" 7 (Or.inl rfl)

/-- C7 -/
theorem updatePost_partial_semantics (db : DB) (actor : User) (id : String)
    (title content file : Option String) (post : Post)
    (hfind : findPostById db.posts id = some post)
    (hauth : post.author = actor.id ∨ actor.role = "admin") :
    ∃ post', updatePost actor id title content file db =
        (.ok post', { db with posts := db.posts.map (fun p => if p.id = id then post' else p) }) ∧
      (title.getD "" = "" → post'.title = post.title) ∧
      (∀ t, title = some t → t ≠ "" → post'.title = t) ∧
      (content.getD "" = "" → post'.content = post.content) ∧
      (∀ c, content = some c → c ≠ "" → post'.content = c) ∧
      (file = none → post'.image = post.image) ∧
      (∀ f, file = some f → post'.image = "/uploads/" ++ f) ∧
      post'.author = post.author ∧ post'.authorName = post.authorName ∧
      post'.id = post.id ∧ post'.createdAt = post.createdAt := by
  have hcond : ¬(¬ post.author = actor.id ∧ ¬ actor.role = "admin") := by
    rcases hauth with h | h
    · exact fun hx => hx.1 h
    · exact fun hx => hx.2 h
  simp only [updatePost, hfind]
  rw [if_neg hcond]
  refine ⟨_, rfl, ?_, ?_, ?_, ?_, ?_, ?_, ?_, ?_, ?_, ?_⟩
  · intro hT
    by_cases hC : content.getD "" = "" <;> cases file <;> simp [hT, hC]
  · intro t ht hne
    subst ht
    by_cases hC : content.getD "" = "" <;> cases file <;> simp [hne, hC]
  · intro hC
    by_cases hT : title.getD "" = "" <;> cases file <;> simp [hT, hC]
  · intro c hcnt hne
    subst hcnt
    by_cases hT : title.getD "" = "" <;> cases file <;> simp [hT, hne]
  · intro hf
    subst hf
    by_cases hT : title.getD "" = "" <;> by_cases hC : content.getD "" = "" <;> simp [hT, hC]
  · intro f hf
    subst hf
    by_cases hT : title.getD "" = "" <;> by_cases hC : content.getD "" = "" <;> simp [hT, hC]
  · by_cases hT : title.getD "" = "" <;> by_cases hC : content.getD "" = "" <;>
      cases file <;> simp [hT, hC]
  · by_cases hT : title.getD "" = "" <;> by_cases hC : content.getD "" = "" <;>
      cases file <;> simp [hT, hC]
  · by_cases hT : title.getD "" = "" <;> by_cases hC : content.getD "" = "" <;>
      cases file <;> simp [hT, hC]
  · by_cases hT : title.getD "" = "" <;> by_cases hC : content.getD "" = "" <;>
      cases file <;> simp [hT, hC]

/-- C7 witness -/
theorem updatePost_partial_semantics_witness :
    ∃ post', updatePost userA "p1" (some "New") (some "") none dbOne =
        (.ok post', { dbOne with posts := dbOne.posts.map (fun p => if p.id = "p1" then post' else p) }) ∧
      ((some "New" : Option String).getD "" = "" → post'.title = postHi.title) ∧
      (∀ t, (some "New" : Option String) = some t → t ≠ "" → post'.title = t) ∧
      ((some "" : Option String).getD "" = "" → post'.content = postHi.content) ∧
      (∀ c, (some "" : Option String) = some c → c ≠ "" → post'.content = c) ∧
      ((none : Option String) = none → post'.image = postHi.image) ∧
      (∀ f, (none : Option String) = some f → post'.image = "/uploads/" ++ f) ∧
      post'.author = postHi.author ∧ post'.authorName = postHi.authorName ∧
      post'.id = postHi.id ∧ post'.createdAt = postHi.createdAt :=
  updatePost_partial_semantics dbOne userA "p1" (some "New") (some "") none postHi
    rfl (Or.inl rfl)

end Blog

namespace Blog

/-- C9 -/
theorem post_author_immutable (db : DB) (actor : User) (id : String)
    (title content file : Option String) (t2 c2 : String) (f2 : Option String)
    (nid : String) (ts : Nat) (cc cpid cnid ci : String)
    (hnd : (db.posts.map Post.id).Nodup) :
    ((updatePost actor id title content file db).2).posts.map Post.author =
      db.posts.map Post.author ∧
    ((updatePost actor id title content file db).2).posts.map Post.id =
      db.posts.map Post.id ∧
    ((createPost actor t2 c2 f2 nid ts db).2).posts.take db.posts.length = db.posts ∧
    (∀ q ∈ ((deletePost actor id db).2).posts, q ∈ db.posts) ∧
    ((createComment actor cc cpid cnid db).2).posts = db.posts ∧
    ((updateComment actor ci cc db).2).posts = db.posts ∧
    ((deleteComment actor ci db).2).posts = db.posts := by
  refine ⟨?_, ?_, ?_, ?_, ?_, ?_, ?_⟩
  · cases hfind : findPostById db.posts id with
    | none => simp [updatePost, hfind]
    | some post =>
      have hpost_mem : post ∈ db.posts := List.mem_of_find?_eq_some hfind
      have hpost_id : post.id = id := by
        have := List.find?_some hfind
        simpa using this
      by_cases hcond : ¬ post.author = actor.id ∧ ¬ actor.role = "admin"
      · simp [updatePost, hfind, hcond]
      · simp only [updatePost, hfind]
        rw [if_neg hcond]
        show (db.posts.map _).map Post.author = db.posts.map Post.author
        rw [List.map_map]
        refine List.map_congr_left ?_
        intro p hp
        by_cases hpi : p.id = id
        · have hpp : p = post :=
            List.inj_on_of_nodup_map hnd hp hpost_mem (by rw [hpi, hpost_id])
          subst hpp
          cases file <;> by_cases hC : (content.getD "" = "") <;>
            by_cases hT : (title.getD "" = "") <;> simp [hpi, hC, hT, Function.comp]
        · simp [hpi, Function.comp]
  · cases hfind : findPostById db.posts id with
    | none => simp [updatePost, hfind]
    | some post =>
      have hpost_mem : post ∈ db.posts := List.mem_of_find?_eq_some hfind
      have hpost_id : post.id = id := by
        have := List.find?_some hfind
        simpa using this
      by_cases hcond : ¬ post.author = actor.id ∧ ¬ actor.role = "admin"
      · simp [updatePost, hfind, hcond]
      · simp only [updatePost, hfind]
        rw [if_neg hcond]
        show (db.posts.map _).map Post.id = db.posts.map Post.id
        rw [List.map_map]
        refine List.map_congr_left ?_
        intro p hp
        by_cases hpi : p.id = id
        · cases file <;> by_cases hC : (content.getD "" = "") <;>
            by_cases hT : (title.getD "" = "") <;>
            simp [hpi, hC, hT, Function.comp, hpost_id]
        · simp [hpi, Function.comp]
  · by_cases h : t2 = "" ∨ c2 = ""
    · simp [createPost, h, List.take_length]
    · simp [createPost, h, List.take_left]
  · intro q hq
    revert hq
    cases hfind : findPostById db.posts id with
    | none => simp [deletePost, hfind]
    | some post =>
      by_cases hcond : ¬ post.author = actor.id ∧ ¬ actor.role = "admin"
      · simp [deletePost, hfind, hcond]
      · simp only [deletePost, hfind]
        rw [if_neg hcond]
        intro hq
        exact List.mem_of_mem_filter hq
  · by_cases h : cc = "" ∨ cpid = ""
    · simp [createComment, h]
    · cases hf : findPostById db.posts cpid <;> simp [createComment, h, hf]
  · cases hf : findCommentById db.comments ci with
    | none => simp [updateComment, hf]
    | some c =>
      by_cases hown : c.author ≠ actor.id
      · simp [updateComment, hf, hown]
      · simp [updateComment, hf, hown]
  · cases hf : findCommentById db.comments ci with
    | none => simp [deleteComment, hf]
    | some c =>
      by_cases hcond : ¬ c.author = actor.id ∧ ¬ actor.role = "admin"
      · simp [deleteComment, hf, hcond]
      · simp only [deleteComment, hf]
        rw [if_neg hcond]

/-- C9 witness -/
theorem post_author_immutable_witness :
    ((updatePost userAdmin "p1" (some "X") none none dbOne).2).posts.map Post.author =
      dbOne.posts.map Post.author :=
  (post_author_immutable dbOne userAdmin "p1" (some "X") none none "t" "c" none "n" 0
    "cc" "pid" "cid" "ci" (by decide)).1

end Blog

namespace Blog

/-- C8 -/
theorem createAdmin_idempotent (email username password n1 n2 : String)
    (users : List User) (he : email ≠ "") (hu : username ≠ "") (hp : password ≠ "") :
    (createAdmin email username password n1 users).2 = 0 ∧
    createAdmin email username password n2 (createAdmin email username password n1 users).1 =
      ((createAdmin email username password n1 users).1, 0) ∧
    (∃ w ∈ (createAdmin email username password n1 users).1,
      (w.email = email ∨ w.username = username) ∧ w.role = "admin") ∧
    (createAdmin email username password n1 []).1.length = 1 := by
  have hargs : ¬(email = "" ∨ username = "" ∨ password = "") := by
    simp [he, hu, hp]
  have hlen : (createAdmin email username password n1 []).1.length = 1 := by
    simp [createAdmin, hargs]
  cases hfind : users.find?
      (fun u => decide (u.email = email) || decide (u.username = username)) with
  | none =>
    have hfind2 : (users ++ [bootstrapUser email username password n1]).find?
          (fun u => decide (u.email = email) || decide (u.username = username)) =
        some (bootstrapUser email username password n1) := by
      rw [List.find?_append, hfind]
      simp [bootstrapUser]
    refine ⟨?_, ?_, ?_, hlen⟩
    · simp [createAdmin, hargs, hfind]
    · simp [createAdmin, hargs, hfind, hfind2, bootstrapUser]
    · refine ⟨bootstrapUser email username password n1, ?_, Or.inl rfl, rfl⟩
      simp [createAdmin, hargs, hfind]
  | some u =>
    have hu_mem : u ∈ users := List.mem_of_find?_eq_some hfind
    have hu_pred : u.email = email ∨ u.username = username := by
      have := List.find?_some hfind
      simpa using this
    by_cases hrole : u.role = "admin"
    · refine ⟨?_, ?_, ⟨u, ?_, hu_pred, hrole⟩, hlen⟩
      · simp [createAdmin, hargs, hfind, hrole]
      · simp [createAdmin, hargs, hfind, hrole]
      · simp [createAdmin, hargs, hfind, hrole]
        exact hu_mem
    · have hcomp : ((fun w : User => decide (w.email = email) || decide (w.username = username)) ∘
          (fun v : User => if v.id = u.id then { v with role := "admin" } else v)) =
          (fun w : User => decide (w.email = email) || decide (w.username = username)) := by
        funext v
        by_cases hv : v.id = u.id <;> simp [hv]
      have hfind2 : (users.map
            (fun v => if v.id = u.id then { v with role := "admin" } else v)).find?
          (fun u => decide (u.email = email) || decide (u.username = username)) =
          some { u with role := "admin" } := by
        rw [List.find?_map _, hcomp, hfind]
        simp
      refine ⟨?_, ?_, ?_, hlen⟩
      · simp [createAdmin, hargs, hfind, hrole]
      · simp [createAdmin, hargs, hfind, hrole, hfind2]
      · refine ⟨{ u with role := "admin" }, ?_, ?_, rfl⟩
        · simp [createAdmin, hargs, hfind, hrole]
          exact ⟨u, hu_mem, by simp⟩
        · simpa using hu_pred

/-- C8 witness -/
theorem createAdmin_idempotent_witness :
    (createAdmin "a@x" "ann" "pw" "n1" []).2 = 0 ∧
    createAdmin "a@x" "ann" "pw" "n2" (createAdmin "a@x" "ann" "pw" "n1" []).1 =
      ((createAdmin "a@x" "ann" "pw" "n1" []).1, 0) ∧
    (∃ w ∈ (createAdmin "a@x" "ann" "pw" "n1" []).1,
      (w.email = "a@x" ∨ w.username = "ann") ∧ w.role = "admin") ∧
    (createAdmin "a@x" "ann" "pw" "n1" []).1.length = 1 :=
  createAdmin_idempotent "a@x" "ann" "pw" "n1" "n2" [] (by decide) (by decide) (by decide)

end Blog
